import Mathlib

/-!
# kiwiOS core — verification of the natural-language specification

A shallow embedding, in Lean 4, of the kiwiOS kernel routines that the
specification's testable properties talk about:

* `src/drivers/block/block.c` — partition-device read/write translation
  (`part_read` / `part_write`), the MBR parser (`probe_mbr_partitions`)
  and the GPT parser (`probe_gpt_partitions` / `register_partition`);
* `src/drivers/ahci/ahci.c` — the zero-sector-count guard of `ahci_rw`;
* `src/core/scheduler.c` — thread table, `next_runnable`,
  `scheduler_on_tick`, `scheduler_yield`;
* `src/arch/x86/idt.c` — the installed timer stub `irq0_handler`;
* `src/fs/bcache.c` — the block cache (`find_evictable`, `bcache_get`,
  `bcache_put`, `bcache_mark_dirty`, `bcache_sync_dev`, `bcache_sync_all`);
* `src/memory/vmm.c` — the 4-level page-table walk (`get_or_create_table`,
  `vmm_map_page`, `vmm_unmap_page`, `vmm_get_physical`).

Machine integers are modelled as `Nat`, with explicit masking (`&&& 2^64-…`,
`% 2^64`) at the points where the C code's fixed width matters.  C functions
that can fail return `Option`/`Bool` exactly where the source does.
-/

namespace KiwiOS

/-! ## Block layer: partition devices (`src/drivers/block/block.c`)

A partition device's context (`part_ctx_t`) carries its parent, `lba_start`
and `lba_count`.  The parent's `read`/`write` is abstracted as a function
from (lba, count) to the boolean result the parent returns; the data buffer
is passed through unchanged by `part_read`/`part_write`, so it does not
appear in the model. -/

/-- 64-bit truncation, for the `uint64_t` addition `p->lba_start + lba`. -/
def u64 (x : Nat) : Nat := x % 2 ^ 64

/-- `part_read` (block.c lines 54–67): fails on `count == 0`; when
`lba_count ≠ 0`, fails when `lba ≥ lba_count` or `count > lba_count - lba`;
otherwise forwards to the parent at `lba_start + lba` with the same count. -/
def part_read (lba_start lba_count : Nat) (parent_rd : Nat → Nat → Bool)
    (lba count : Nat) : Bool :=
  if count = 0 then false
  else if lba_count ≠ 0 ∧ (lba ≥ lba_count ∨ count > lba_count - lba) then false
  else parent_rd (u64 (lba_start + lba)) count

/-- `part_write` (block.c lines 69–82): textually the same guard structure as
`part_read`, forwarding to the parent's `write`. -/
def part_write (lba_start lba_count : Nat) (parent_wr : Nat → Nat → Bool)
    (lba count : Nat) : Bool :=
  if count = 0 then false
  else if lba_count ≠ 0 ∧ (lba ≥ lba_count ∨ count > lba_count - lba) then false
  else parent_wr (u64 (lba_start + lba)) count

/-! ## AHCI: the zero-count guard of `ahci_rw` (`src/drivers/ahci/ahci.c`)

`ahci_rw` (lines 525–532) returns `false` when no disk is selected and when
`sector_count == 0`, in both cases before any MMIO register of the port is
touched.  Everything from line 532 on (the actual command issue) is
abstracted as the `rest` outcome, which the function only reaches once both
guards pass. -/

/-- Outcome of an `ahci_rw` call: the boolean result and the list of
(port-register offset, value) MMIO writes the call performed. -/
structure AhciRwOutcome where
  ok : Bool
  port_writes : List (Nat × Nat)
  deriving Repr, DecidableEq

/-- The guard prefix of `ahci_rw` (ahci.c lines 525–532).  `rest` stands for
the command-issue tail of the function (lines 532 onward), which performs
the port MMIO; it is reached only when the disk is ready and
`sector_count ≠ 0`. -/
def ahci_rw (ready : Bool) (sector_count : Nat) (rest : AhciRwOutcome) :
    AhciRwOutcome :=
  if !ready then ⟨false, []⟩
  else if sector_count = 0 then ⟨false, []⟩
  else rest

/-! ## GPT header validation (`probe_gpt_partitions`, block.c lines 282–307) -/

/-- `sizeof(gpt_entry_t)`: 16 + 16 + 8 + 8 + 8 + 72 bytes (packed). -/
def gpt_entry_sizeof : Nat := 128

/-- `sectors_needed = (entry_size * nentries + 511) / 512` (block.c 299–300). -/
def gpt_sectors_needed (entry_size nentries : Nat) : Nat :=
  (entry_size * nentries + 511) / 512

/-- The field validation performed by `probe_gpt_partitions` after the
"EFI PART" signature check (block.c lines 282–307): `true` iff control
reaches the entry-array read (line 309), i.e. parsing proceeds. -/
def gpt_header_valid (header_size part_entry_size num_part_entries : Nat) :
    Bool :=
  if header_size < 92 ∨ header_size > 512 then false
  else if part_entry_size < gpt_entry_sizeof ∨ part_entry_size > 1024 then false
  else if num_part_entries = 0 ∨ num_part_entries > 4096 then false
  else if gpt_sectors_needed part_entry_size num_part_entries = 0 then false
  else if gpt_sectors_needed part_entry_size num_part_entries > 1024 then false
  else true

/-! ## Partition registration (`register_partition`, block.c lines 131–168)

The global arrays `g_parts`/`g_part_ctx` (bounded by `MAX_PARTITIONS = 16`)
are modelled as a list of registered partition devices, in registration
order. -/

/-- A registered partition device: its synthesized name, start LBA, sector
count, and partition-table origin. -/
structure PartDev where
  name : List Char
  lba_start : Nat
  lba_count : Nat
  is_gpt : Bool
  mbr_type : Nat
  deriving Repr, DecidableEq

/-- The digit-collection loop of `make_part_name` (block.c lines 113–127):
collect up to three least-significant decimal digits of `n` (with `n == 0`
treated as 1), emitted most-significant first. -/
def part_num_digits (num : Nat) : List Char :=
  let n0 := if num = 0 then 1 else num
  let t1 := [Char.ofNat (48 + n0 % 10)]
  let n1 := n0 / 10
  let t2 := if n1 > 0 then t1 ++ [Char.ofNat (48 + n1 % 10)] else t1
  let n2 := n1 / 10
  let t3 := if n2 > 0 then t2 ++ [Char.ofNat (48 + n2 % 10)] else t2
  t3.reverse

/-- `make_part_name` (block.c lines 98–129): copy the parent name (bounded
to 23 characters), append `'p'` if room remains, then append the decimal
digits while room remains. -/
def make_part_name (parent : List Char) (num : Nat) : List Char :=
  let base := parent.take 23
  let withP := if base.length < 23 then base ++ ['p'] else base
  withP ++ (part_num_digits num).take (23 - withP.length)

/-- `register_partition` (block.c lines 131–168): no-op when the table is
full (`g_part_count >= MAX_PARTITIONS`) or when `count == 0`; otherwise
appends a device named `make_part_name parent (idx+1)` carrying the given
start/count. -/
def register_partition (parent_name : List Char) (ps : List PartDev)
    (start count : Nat) (is_gpt : Bool) (mbr_type : Nat) : List PartDev :=
  if ps.length ≥ 16 then ps
  else if count = 0 then ps
  else ps ++ [⟨make_part_name parent_name (ps.length + 1), start, count,
              is_gpt, mbr_type⟩]

/-! ## GPT entry scan (block.c lines 326–352) -/

/-- One `gpt_entry_t`; the two GUIDs are their 16 raw bytes, the LBAs are
the `uint64_t` fields. -/
structure GptEntry where
  type_guid : List Nat
  unique_guid : List Nat
  first_lba : Nat
  last_lba : Nat
  deriving Repr, DecidableEq

/-- `guid_is_zero` (block.c lines 93–96). -/
def guid_is_zero (g : List Nat) : Bool := g.all (· == 0)

/-- The entry loop of `probe_gpt_partitions` (block.c lines 325–352): walk
the entry array in order while `g_part_count < MAX_PARTITIONS`; skip
zero-type-GUID entries, entries with `first_lba == 0 && last_lba == 0`, and
entries with `last_lba < first_lba`; register the rest with
`count = last_lba - first_lba + 1` (64-bit arithmetic). -/
def gpt_scan (parent_name : List Char) (ps : List PartDev) :
    List GptEntry → List PartDev
  | [] => ps
  | e :: rest =>
    if ps.length ≥ 16 then ps
    else if guid_is_zero e.type_guid then gpt_scan parent_name ps rest
    else if e.first_lba = 0 ∧ e.last_lba = 0 then gpt_scan parent_name ps rest
    else if e.last_lba < e.first_lba then gpt_scan parent_name ps rest
    else
      gpt_scan parent_name
        (register_partition parent_name ps e.first_lba
          (u64 (e.last_lba - e.first_lba + 1)) true 0) rest

/-- The entries the GPT loop actually registers (all four source guards,
including `register_partition`'s `count == 0` re-check, which fires only on
64-bit wrap of `last_lba - first_lba + 1`). -/
def gpt_keep (e : GptEntry) : Bool :=
  decide (¬(guid_is_zero e.type_guid = true) ∧
          ¬(e.first_lba = 0 ∧ e.last_lba = 0) ∧
          ¬(e.last_lba < e.first_lba) ∧
          u64 (e.last_lba - e.first_lba + 1) ≠ 0)

/-- Index-passing map: `mapWithIdx f k [a₀, a₁, …] = [f k a₀, f (k+1) a₁, …]`.
Used to state the registration order and the 1-based partition names. -/
def mapWithIdx {α β : Type} (f : Nat → α → β) : Nat → List α → List β
  | _, [] => []
  | k, a :: as => f k a :: mapWithIdx f (k + 1) as

/-- The partition device the GPT loop registers for entry `e` in slot `k`. -/
def gpt_mk (pn : List Char) (k : Nat) (e : GptEntry) : PartDev :=
  ⟨make_part_name pn (k + 1), e.first_lba, u64 (e.last_lba - e.first_lba + 1),
   true, 0⟩

/-! ## MBR parsing (`probe_mbr_partitions`, block.c lines 181–225) -/

/-- Byte `i` of a raw sector (out-of-range reads as 0; the probe only ever
reads inside the 512-byte buffer). -/
def byteAt (sec : List Nat) (i : Nat) : Nat := sec.getD i 0

/-- Little-endian `uint32_t` at byte offset `i`. -/
def le32 (sec : List Nat) (i : Nat) : Nat :=
  byteAt sec i + 256 * byteAt sec (i + 1) + 65536 * byteAt sec (i + 2) +
    16777216 * byteAt sec (i + 3)

/-- `type` byte of the `i`-th MBR entry (offset 446 + 16·i + 4). -/
def mbr_type (sec : List Nat) (i : Nat) : Nat := byteAt sec (446 + 16 * i + 4)

/-- `lba_start` of the `i`-th MBR entry (offset 446 + 16·i + 8). -/
def mbr_start (sec : List Nat) (i : Nat) : Nat := le32 sec (446 + 16 * i + 8)

/-- `lba_count` of the `i`-th MBR entry (offset 446 + 16·i + 12). -/
def mbr_count (sec : List Nat) (i : Nat) : Nat := le32 sec (446 + 16 * i + 12)

/-- The entry loop of `probe_mbr_partitions` (block.c lines 191–224) over
the listed entry indices: runs while `g_part_count < MAX_PARTITIONS`; skips
type 0, zero count, and the protective type 0xEE; registers the rest and
counts them in `added`. -/
def mbr_loop (parent_name : List Char) (sec : List Nat) :
    List Nat → List PartDev → Nat → List PartDev × Nat
  | [], ps, added => (ps, added)
  | i :: rest, ps, added =>
    if ps.length ≥ 16 then (ps, added)
    else if mbr_type sec i = 0 ∨ mbr_count sec i = 0 then
      mbr_loop parent_name sec rest ps added
    else if mbr_type sec i = 0xEE then
      mbr_loop parent_name sec rest ps added
    else
      mbr_loop parent_name sec rest
        (register_partition parent_name ps (mbr_start sec i) (mbr_count sec i)
          false (mbr_type sec i))
        (added + 1)

/-- `probe_mbr_partitions` (block.c lines 181–225): check the `0x55 0xAA`
signature at bytes 510–511 of LBA 0, then scan the four entries at offset
446; returns the partition table and the `added` count. -/
def probe_mbr_partitions (parent_name : List Char) (ps : List PartDev)
    (sec : List Nat) : List PartDev × Nat :=
  if byteAt sec 510 = 0x55 ∧ byteAt sec 511 = 0xAA then
    mbr_loop parent_name sec [0, 1, 2, 3] ps 0
  else (ps, 0)

/-- The entries the MBR loop registers: the two skip guards of the source
loop, negated. -/
def mbr_keep (sec : List Nat) (i : Nat) : Bool :=
  decide (¬(mbr_type sec i = 0 ∨ mbr_count sec i = 0) ∧ mbr_type sec i ≠ 0xEE)

/-- The partition device the MBR loop registers for entry `i` in slot `k`. -/
def mbr_mk (pn : List Char) (sec : List Nat) (k i : Nat) : PartDev :=
  ⟨make_part_name pn (k + 1), mbr_start sec i, mbr_count sec i, false,
   mbr_type sec i⟩

/-! ## Concrete test data for the spec's GPT/MBR scenarios -/

/-- The boot disk's name, `"ahci0"` (block.c line 380). -/
def ahci0 : List Char := ['a', 'h', 'c', 'i', '0']

/-- A non-zero type GUID. -/
def guid1 : List Nat := 1 :: List.replicate 15 0

/-- The spec's three GPT entries: LBA ranges 2048–4095, 4096–6143,
6144–10239, all with a non-zero type GUID. -/
def gpt_three : List GptEntry :=
  [⟨guid1, guid1, 2048, 4095⟩, ⟨guid1, guid1, 4096, 6143⟩,
   ⟨guid1, guid1, 6144, 10239⟩]

/-- A GPT entry with a non-zero type GUID and `first_lba = last_lba = 0`. -/
def gpt_zero_lba_entry : GptEntry := ⟨guid1, guid1, 0, 0⟩

/-- LBA 0 of the spec's MBR scenario: signature `55 AA` and one entry of
type 0x83, start 2048 (`00 08 00 00` at offset 454), count 1024000
(`00 A0 0F 00` at offset 458). -/
def mbr_sector_83 : List Nat :=
  (((((List.replicate 512 0).set 450 0x83).set 455 0x08).set 459 0xA0).set
      460 0x0F |>.set 510 0x55).set 511 0xAA

/-- LBA 0 with only a protective-MBR entry: type 0xEE, start 1, non-zero
count. -/
def mbr_sector_ee : List Nat :=
  ((((List.replicate 512 0).set 450 0xEE).set 454 0x01).set 458 0x22
    |>.set 510 0x55).set 511 0xAA

/-! ## Scheduler (`src/core/scheduler.c`) and the timer stub (`idt.c`)

`MAX_THREADS = 16`.  Only the fields the claims mention are modelled:
thread slot states (slot `i` has `id = i`), the current-thread pointer (a
slot index, `none` before `scheduler_init`), `thread_count`, and the
volatile `reschedule_requested` flag (an `int`, set to 1 by the tick
hook).  The context-switch call at the end of `scheduler_yield` swaps
callee-saved registers only; it does not touch any of these fields. -/

/-- `thread_state_t` (scheduler.h lines 9–15). -/
inductive ThreadState where
  | unused
  | ready
  | running
  | blocked
  | dead
  deriving Repr, DecidableEq

/-- The scheduler's mutable globals (scheduler.c lines 11–14). -/
structure SchedState where
  threads : Nat → ThreadState
  current : Option Nat
  thread_count : Nat
  reschedule_requested : Nat

/-- Point update of the thread table. -/
def update_thread (f : Nat → ThreadState) (i : Nat) (st : ThreadState) :
    Nat → ThreadState :=
  fun j => if j = i then st else f j

/-- The scan loop of `next_runnable` (scheduler.c lines 49–54) over the
listed loop counters `i`: return the first slot `(start + i) % 16` in
`THREAD_READY` state. -/
def find_ready (thr : Nat → ThreadState) (start : Nat) :
    List Nat → Option Nat
  | [] => none
  | i :: rest =>
    if thr ((start + i) % 16) = .ready then some ((start + i) % 16)
    else find_ready thr start rest

/-- `next_runnable` (scheduler.c lines 43–57): with `thread_count <= 1`
return the current thread; otherwise scan 16 slots from
`(current.id + 1) % 16`, falling back to the current thread when no slot
is ready. -/
def next_runnable (s : SchedState) : Option Nat :=
  if s.thread_count ≤ 1 then s.current
  else
    let start := match s.current with
      | some c => (c + 1) % 16
      | none => 0
    match find_ready s.threads start (List.range 16) with
    | some idx => some idx
    | none => s.current

/-- `scheduler_on_tick` (scheduler.c lines 119–122): sets the volatile
reschedule flag.  No code in the repository calls it. -/
def scheduler_on_tick (s : SchedState) : SchedState :=
  { s with reschedule_requested := 1 }

/-- The installed timer stub `irq0_handler` (idt.c lines 232–274, wired to
vector 32 by `idt_set_gate(32, irq0_handler)` at line 365).  Its body
pushes the GPRs, writes the EOI byte `0x20` to PIC command port `0x20`,
pops the GPRs and returns with `iretq`; it calls no C function and writes
no scheduler state, so its effect is the identity on the scheduler state
plus a single port write. -/
def irq0_handler (s : SchedState) : SchedState × List (Nat × Nat) :=
  (s, [(0x20, 0x20)])

/-- `scheduler_yield` (scheduler.c lines 124–149), modelled up to (and
excluding) the register-level `arch_context_switch`: pick the next
runnable thread, read-and-clear the reschedule flag, return unchanged
(except for the cleared flag) when nothing was requested and the next
runnable is the current thread, and otherwise perform the state
transitions in source order (`next->state = RUNNING`, `current_thread =
next`, then `prev->state = READY` if it still reads `RUNNING`). -/
def scheduler_yield (s : SchedState) : SchedState :=
  match s.current with
  | none => s
  | some cur =>
    let next := next_runnable s
    let requested := s.reschedule_requested
    let s1 : SchedState := { s with reschedule_requested := 0 }
    match next with
    | none => s1
    | some nx =>
      if requested = 0 ∧ nx = cur then s1
      else
        let t1 := update_thread s1.threads nx .running
        let t2 := if t1 cur = .running then update_thread t1 cur .ready else t1
        { s1 with threads := t2, current := some nx }

/-- A freshly initialized scheduler: bootstrap thread running in slot 0
(`scheduler_init`, scheduler.c lines 59–73). -/
def sched_boot : SchedState :=
  ⟨fun i => if i = 0 then .running else .unused, some 0, 1, 0⟩

/-- Bootstrap plus one created thread in slot 1 (`scheduler_create`). -/
def sched_two : SchedState :=
  ⟨fun i => if i = 0 then .running else if i = 1 then .ready else .unused,
   some 0, 2, 0⟩

/-! ## Block cache (`src/fs/bcache.c`)

The buffer pool `g_bufs` is a list indexed by slot; the doubly-linked LRU
list is modelled by its order (head = most recently used, matching
`g_lru_head`; the C `prev` walk from `g_lru_tail` is the reverse order).
The hash table is an index over the valid buffers' `(dev, block_no)` keys,
so `ht_lookup` is modelled as a search over the pool, and
`ht_insert`/`ht_remove` are subsumed by the `valid`/key updates.  Devices
are identified by a `Nat` id (`none` models a NULL `dev` pointer); the
4 KiB contents of a buffer and of each disk block are abstract `Nat`
tokens; `wok d b` / `rok d b` say whether the device write/read for
`(d, b)` succeeds (bcache.c always transfers whole 4 KiB blocks). -/

/-- One `bcache_buf_t` (bcache.c lines 8–28), minus the intrusive links. -/
structure BcacheBuf where
  dev : Option Nat
  block_no : Nat
  refcnt : Nat
  valid : Bool
  dirty : Bool
  data : Nat
  deriving Repr, DecidableEq

instance : Inhabited BcacheBuf := ⟨⟨none, 0, 0, false, false, 0⟩⟩

/-- The cache globals plus the disks' contents. -/
structure BcacheState where
  bufs : List BcacheBuf
  lru : List Nat
  disk : Nat → Nat → Nat

/-- Read slot `i` of the pool. -/
def getBuf (s : BcacheState) (i : Nat) : BcacheBuf := s.bufs.getD i default

/-- Write slot `i` of the pool. -/
def setBuf (s : BcacheState) (i : Nat) (b : BcacheBuf) : BcacheState :=
  { s with bufs := s.bufs.set i b }

/-- Point update of a disk's contents. -/
def diskWrite (f : Nat → Nat → Nat) (d b v : Nat) : Nat → Nat → Nat :=
  fun x y => if x = d ∧ y = b then v else f x y

/-- `lru_touch` (bcache.c lines 72–77): unlink and re-link at the head. -/
def lru_touch (s : BcacheState) (i : Nat) : BcacheState :=
  { s with lru := i :: s.lru.erase i }

/-- `ht_lookup` (bcache.c lines 103–112): a valid buffer with the given
key, if any. -/
def ht_lookup (s : BcacheState) (dev blk : Nat) : Option Nat :=
  (List.range s.bufs.length).find? fun i =>
    decide ((getBuf s i).valid = true ∧ (getBuf s i).dev = some dev ∧
            (getBuf s i).block_no = blk)

/-- `find_evictable` (bcache.c lines 151–159): walk from the LRU tail
toward the head, returning the first buffer with `refcnt == 0`. -/
def find_evictable (s : BcacheState) : Option Nat :=
  s.lru.reverse.find? fun i => decide ((getBuf s i).refcnt = 0)

/-- `writeback_one` (bcache.c lines 134–149): clean or invalid buffers are
trivially fine; a dirty one is written to its device (`none` on device
failure or NULL `dev`, with no state change), then marked clean. -/
def writeback_one (wok : Nat → Nat → Bool) (s : BcacheState) (i : Nat) :
    Option BcacheState :=
  let b := getBuf s i
  if b.valid = false then some s
  else if b.dirty = false then some s
  else
    match b.dev with
    | none => none
    | some d =>
      if wok d b.block_no then
        some (setBuf { s with disk := diskWrite s.disk d b.block_no b.data }
          i { b with dirty := false })
      else none

/-- `bcache_get` (bcache.c lines 214–278).  Hit: bump the refcount and
touch the LRU.  Miss: find an evictable buffer (`refcnt == 0`); if it is
valid and dirty, write it back first, aborting with no state change on
writeback failure; re-key it, read the block from the device (marking the
slot invalid again and failing if the read fails), then pin it with
`refcnt = 1` and touch the LRU. -/
def bcache_get (wok rok : Nat → Nat → Bool) (s : BcacheState)
    (dev blk : Nat) : BcacheState × Option Nat :=
  match ht_lookup s dev blk with
  | some i =>
    let b := getBuf s i
    (lru_touch (setBuf s i { b with refcnt := b.refcnt + 1 }) i, some i)
  | none =>
    match find_evictable s with
    | none => (s, none)
    | some v =>
      let step :=
        if (getBuf s v).valid = true ∧ (getBuf s v).dirty = true then
          writeback_one wok s v
        else some s
      match step with
      | none => (s, none)
      | some s1 =>
        let b1 := getBuf s1 v
        let s2 := setBuf s1 v
          { b1 with dev := some dev, block_no := blk, valid := true,
                    dirty := false }
        if rok dev blk then
          let s3 := setBuf s2 v
            { getBuf s2 v with data := s2.disk dev blk, refcnt := 1 }
          (lru_touch s3 v, some v)
        else
          let s3 := setBuf s2 v
            { getBuf s2 v with valid := false, dev := none, block_no := 0 }
          (s3, none)

/-- `bcache_put` (bcache.c lines 280–285): decrement a positive refcount;
a refcount of zero is left alone. -/
def bcache_put (s : BcacheState) (i : Nat) : BcacheState :=
  let b := getBuf s i
  if b.refcnt = 0 then s
  else setBuf s i { b with refcnt := b.refcnt - 1 }

/-- `bcache_mark_dirty` (bcache.c lines 287–293). -/
def bcache_mark_dirty (s : BcacheState) (i : Nat) : BcacheState :=
  let b := getBuf s i
  if b.valid = false then s
  else if b.dirty = true then s
  else setBuf s i { b with dirty := true }

/-- The writeback sweep shared by `bcache_sync_dev` and `bcache_sync_all`
(bcache.c lines 302–308 and 324–329): for each listed slot holding a
valid dirty buffer (of the given device, when one is given), write it
back; a failure clears `ok` but the sweep continues. -/
def sync_sweep (wok : Nat → Nat → Bool) (devFilter : Option Nat) :
    List Nat → BcacheState → Bool → BcacheState × Bool
  | [], s, ok => (s, ok)
  | i :: rest, s, ok =>
    let b := getBuf s i
    if b.valid = true ∧ (∀ d ∈ devFilter, b.dev = some d) ∧ b.dirty = true
    then
      match writeback_one wok s i with
      | some s1 => sync_sweep wok devFilter rest s1 ok
      | none => sync_sweep wok devFilter rest s false
    else sync_sweep wok devFilter rest s ok

/-- `bcache_sync_dev` (bcache.c lines 295–315): sweep the pool for the
device's dirty buffers, then call the device's flush (`fok`). -/
def bcache_sync_dev (wok : Nat → Nat → Bool) (fok : Nat → Bool)
    (s : BcacheState) (dev : Nat) : BcacheState × Bool :=
  let r := sync_sweep wok (some dev) (List.range s.bufs.length) s true
  (r.1, r.2 && fok dev)

/-- `bcache_sync_all` (bcache.c lines 317–335): sweep every dirty buffer;
device flushes are the caller's responsibility. -/
def bcache_sync_all (wok : Nat → Nat → Bool) (s : BcacheState) :
    BcacheState × Bool :=
  sync_sweep wok none (List.range s.bufs.length) s true

/-- A one-buffer cache holding a valid dirty unpinned buffer for block 3
of device 7 with contents 42, over an all-zero disk. -/
def bc_state0 : BcacheState :=
  ⟨[⟨some 7, 3, 0, true, true, 42⟩], [0], fun _ _ => 0⟩

/-- `bc_state0` after writing buffer 0 back: clean, disk updated. -/
def bc_state1 : BcacheState :=
  ⟨[⟨some 7, 3, 0, true, false, 42⟩], [0], diskWrite (fun _ _ => 0) 7 3 42⟩

/-! ## Virtual memory manager (`src/memory/vmm.c`)

Physical memory holding the page tables is a function
`base → index → entry` (64-bit entries as `Nat`); the HHDM indirection
(`phys_to_virt`) is the identity of this addressing and does not appear.
The PMM is the list of frames `pmm_alloc` will hand out next, popped from
the front (`none` = out of frames, which `pmm_alloc` signals by NULL).  A
`page_table_t` is its PML4 base. -/

/-- `PTE_GET_ADDR`'s mask `0x000FFFFFFFFFF000` (vmm.c line 15). -/
def addrMask : Nat := 0x000FFFFFFFFFF000

/-- `PAGE_ALIGN_DOWN(addr) = addr & ~0xFFFULL` (vmm.h line 18), on the
64-bit domain of the source. -/
def page_align_down (a : Nat) : Nat := a &&& 0xFFFFFFFFFFFFF000

/-- `PML4_INDEX(virt) = (virt >> 39) & 0x1FF` (vmm.c line 9). -/
def pml4_index (v : Nat) : Nat := (v >>> 39) &&& 0x1FF

/-- `PDPT_INDEX(virt) = (virt >> 30) & 0x1FF` (vmm.c line 10). -/
def pdpt_index (v : Nat) : Nat := (v >>> 30) &&& 0x1FF

/-- `PD_INDEX(virt) = (virt >> 21) & 0x1FF` (vmm.c line 11). -/
def pd_index (v : Nat) : Nat := (v >>> 21) &&& 0x1FF

/-- `PT_INDEX(virt) = (virt >> 12) & 0x1FF` (vmm.c line 12). -/
def pt_index (v : Nat) : Nat := (v >>> 12) &&& 0x1FF

/-- `PTE_GET_ADDR(entry)` (vmm.c line 15). -/
def pte_get_addr (e : Nat) : Nat := e &&& addrMask

/-- Write one page-table entry (a 64-bit store through the HHDM). -/
def entryUpdate (m : Nat → Nat → Nat) (t idx v : Nat) : Nat → Nat → Nat :=
  fun b i => if b = t ∧ i = idx then v else m b i

/-- `memset(new_table_virt, 0, PAGE_SIZE)`: zero a whole table. -/
def tableZero (m : Nat → Nat → Nat) (t : Nat) : Nat → Nat → Nat :=
  fun b i => if b = t then 0 else m b i

/-- A page-table handle plus the machine state it works in. -/
structure VmmState where
  mem : Nat → Nat → Nat
  freeFrames : List Nat
  pml4 : Nat

/-- `get_or_create_table` (vmm.c lines 83–109): if the entry is present,
upgrade it with `PAGE_USER` when asked and it lacks it, and return the
table it points to; otherwise allocate a frame (`none` when the PMM is
exhausted or returns NULL), zero it, and link it with
`PRESENT|WRITE(|USER)`.  Returns the updated memory, remaining free
frames, and the child table's base. -/
def get_or_create_table (m : Nat → Nat → Nat) (fl : List Nat)
    (table idx : Nat) (user : Bool) :
    Option ((Nat → Nat → Nat) × List Nat × Nat) :=
  let entry := m table idx
  if entry &&& 1 ≠ 0 then
    let m' := if user = true ∧ entry &&& 4 = 0 then
        entryUpdate m table idx (entry ||| 4)
      else m
    some (m', fl, pte_get_addr entry)
  else
    match fl with
    | [] => none
    | np :: rest =>
      if np = 0 then none
      else
        let flags := if user then 7 else 3
        some (entryUpdate (tableZero m np) table idx (np ||| flags),
              rest, np)

/-- The walk/create prefix of `vmm_map_page` (vmm.c lines 127–134): the
three sequenced `get_or_create_table` calls.  Returns the updated memory,
remaining frames, and the three child table bases (PDPT, PD, PT). -/
def vmm_walk_create (s : VmmState) (virt : Nat) (user : Bool) :
    Option ((Nat → Nat → Nat) × List Nat × Nat × Nat × Nat) :=
  let v := page_align_down virt
  match get_or_create_table s.mem s.freeFrames s.pml4 (pml4_index v) user
  with
  | none => none
  | some (m1, f1, t1) =>
    match get_or_create_table m1 f1 t1 (pdpt_index v) user with
    | none => none
    | some (m2, f2, t2) =>
      match get_or_create_table m2 f2 t2 (pd_index v) user with
      | none => none
      | some (m3, f3, t3) => some (m3, f3, t1, t2, t3)

/-- `bool user_accessible = (flags & PAGE_USER) != 0` (vmm.c line 125). -/
def user_flag (flags : Nat) : Bool := decide (flags &&& 4 ≠ 0)

/-- `vmm_map_page` (vmm.c lines 111–143): align both addresses down, walk
and create intermediate tables (failing, without rollback, when a level
cannot be allocated), then store `phys | flags | PAGE_PRESENT` in the
leaf entry. -/
def vmm_map_page (s : VmmState) (virt phys flags : Nat) :
    Option VmmState :=
  let v := page_align_down virt
  let p := page_align_down phys
  match vmm_walk_create s virt (user_flag flags) with
  | none => none
  | some (m3, f3, _, _, t3) =>
    some ⟨entryUpdate m3 t3 (pt_index v) (p ||| flags ||| 1), f3, s.pml4⟩

/-- `vmm_unmap_page` (vmm.c lines 145–175): walk without creating; if
every level is present, clear the leaf entry. -/
def vmm_unmap_page (s : VmmState) (virt : Nat) : VmmState :=
  let v := page_align_down virt
  let e0 := s.mem s.pml4 (pml4_index v)
  if e0 &&& 1 = 0 then s
  else
    let e1 := s.mem (pte_get_addr e0) (pdpt_index v)
    if e1 &&& 1 = 0 then s
    else
      let e2 := s.mem (pte_get_addr e1) (pd_index v)
      if e2 &&& 1 = 0 then s
      else
        { s with
          mem := entryUpdate s.mem (pte_get_addr e2) (pt_index v) 0 }

/-- `vmm_get_physical` (vmm.c lines 177–205): walk without creating,
returning 0 when any level (or the leaf) is not present, and
`PTE_GET_ADDR` of the leaf entry otherwise. -/
def vmm_get_physical (s : VmmState) (virt : Nat) : Nat :=
  let v := page_align_down virt
  let e0 := s.mem s.pml4 (pml4_index v)
  if e0 &&& 1 = 0 then 0
  else
    let e1 := s.mem (pte_get_addr e0) (pdpt_index v)
    if e1 &&& 1 = 0 then 0
    else
      let e2 := s.mem (pte_get_addr e1) (pd_index v)
      if e2 &&& 1 = 0 then 0
      else
        let e3 := s.mem (pte_get_addr e2) (pt_index v)
        if e3 &&& 1 = 0 then 0
        else pte_get_addr e3

/-- The four table bases a successful walk of `virt` passes through are
pairwise distinct.  In the kernel this holds because the PMM hands out
frames that are fresh, and the boot page tables form a tree; the flat
memory model needs it as an explicit hypothesis. -/
def path_distinct (s : VmmState) (virt : Nat) (user : Bool) : Prop :=
  ∀ m3 f3 t1 t2 t3,
    vmm_walk_create s virt user = some (m3, f3, t1, t2, t3) →
    [s.pml4, t1, t2, t3].Nodup

/-- An empty PML4 at base 0x4000 with three well-formed free frames. -/
def vmm_state0 : VmmState :=
  ⟨fun _ _ => 0, [0x1000, 0x2000, 0x3000], 0x4000⟩

end KiwiOS

/-! # Theorems -/

set_option maxRecDepth 16384

namespace KiwiOS

/-- Any header within the GPT validation bounds needs at least one sector
for its entry array. -/
theorem gpt_sectors_needed_pos (esz n : Nat) (he : 128 ≤ esz) (hn : 1 ≤ n) :
    1 ≤ gpt_sectors_needed esz n := by
  have h1 : 128 ≤ esz * n :=
    le_trans he (Nat.le_mul_of_pos_right esz hn)
  have h2 : (128 + 511) / 512 ≤ (esz * n + 511) / 512 :=
    Nat.div_le_div_right (by omega)
  simpa [gpt_sectors_needed] using h2

/-- C4 (counterexample): the header `{header_size = 92, part_entry_size =
128, num_part_entries = 4096}` has an entry array of 1024 sectors — more
than the 512 sectors the claim says get rejected — yet
`probe_gpt_partitions` accepts it and proceeds to parse the entry array. -/
theorem gpt_header_cap_counterexample :
    gpt_header_valid 92 128 4096 = true ∧
      512 < gpt_sectors_needed 128 4096 := by
  constructor <;> decide

/-- C4 (amended): `probe_gpt_partitions` proceeds to parse the entry array
exactly when `header_size ∈ [92, 512]`, `part_entry_size ∈
[sizeof(gpt_entry_t), 1024]`, `num_part_entries ∈ [1, 4096]`, and the
entry array needs at most 1024 sectors (not 512 as claimed). -/
theorem gpt_header_validation (hsz esz n : Nat) :
    gpt_header_valid hsz esz n = true ↔
      (92 ≤ hsz ∧ hsz ≤ 512 ∧ gpt_entry_sizeof ≤ esz ∧ esz ≤ 1024 ∧
       1 ≤ n ∧ n ≤ 4096 ∧ gpt_sectors_needed esz n ≤ 1024) := by
  unfold gpt_header_valid gpt_entry_sizeof
  split_ifs with h1 h2 h3 h4 h5
  · simp only [false_iff]; rintro ⟨a, b, c, d, e, f, g⟩; omega
  · simp only [false_iff]; rintro ⟨a, b, c, d, e, f, g⟩; omega
  · simp only [false_iff]; rintro ⟨a, b, c, d, e, f, g⟩; omega
  · exact absurd h4 (by
      have := gpt_sectors_needed_pos esz n (by omega) (by omega); omega)
  · simp only [false_iff]; rintro ⟨a, b, c, d, e, f, g⟩; omega
  · simp only [true_iff]
    refine ⟨?_, ?_, ?_, ?_, ?_, ?_, ?_⟩ <;> omega

/-- C4 (witness): a header of 92/128/8 within all bounds is accepted. -/
theorem gpt_header_validation_witness :
    gpt_header_valid 92 128 8 = true :=
  (gpt_header_validation 92 128 8).mpr (by decide)

/-- C7 (counterexample): on a partition of 4 sectors starting at LBA 100
whose parent read/write always succeeds, a request for 0 sectors at LBA 0
is within the claimed bounds (`¬(0 ≥ 4 ∨ 0 > 4 - 0)`), so the claim says
the parent is invoked and its result (`true`) returned; `part_read` and
`part_write` instead return `false`. -/
theorem part_rw_zero_count_counterexample :
    part_read 100 4 (fun _ _ => true) 0 0 = false ∧
      part_write 100 4 (fun _ _ => true) 0 0 = false ∧
      ¬((0 : Nat) ≥ 4 ∨ (0 : Nat) > 4 - 0) :=
  ⟨rfl, rfl, by decide⟩

/-- C7 (amended): for requests of at least one sector on a partition with a
non-zero length (every registered partition has `lba_count ≥ 1`),
`part_read`/`part_write` fail exactly when `lba ≥ lba_count` or
`count > lba_count - lba`, and otherwise forward to the parent at
`lba_start + lba` with the same count, returning the parent's result. -/
theorem part_rw_translation (ls lc : Nat) (prd pwr : Nat → Nat → Bool)
    (lba count : Nat) (hcount : 1 ≤ count) (hlc : 1 ≤ lc) :
    (part_read ls lc prd lba count =
      if lba ≥ lc ∨ count > lc - lba then false
      else prd (u64 (ls + lba)) count) ∧
    (part_write ls lc pwr lba count =
      if lba ≥ lc ∨ count > lc - lba then false
      else pwr (u64 (ls + lba)) count) := by
  constructor
  · unfold part_read
    rw [if_neg (by omega)]
    by_cases hx : lba ≥ lc ∨ count > lc - lba
    · rw [if_pos ⟨by omega, hx⟩, if_pos hx]
    · rw [if_neg (by tauto), if_neg hx]
  · unfold part_write
    rw [if_neg (by omega)]
    by_cases hx : lba ≥ lc ∨ count > lc - lba
    · rw [if_pos ⟨by omega, hx⟩, if_pos hx]
    · rw [if_neg (by tauto), if_neg hx]

/-- C7 (witness): a 2-sector read/write at LBA 1 of an 8-sector partition
starting at LBA 100 reaches the parent at LBA 101. -/
theorem part_rw_translation_witness :
    (part_read 100 8 (fun _ _ => true) 1 2 =
      if (1 : Nat) ≥ 8 ∨ (2 : Nat) > 8 - 1 then false
      else (fun _ _ => true) (u64 (100 + 1)) 2) ∧
    (part_write 100 8 (fun _ _ => true) 1 2 =
      if (1 : Nat) ≥ 8 ∨ (2 : Nat) > 8 - 1 then false
      else (fun _ _ => true) (u64 (100 + 1)) 2) :=
  part_rw_translation 100 8 (fun _ _ => true) (fun _ _ => true) 1 2
    (by decide) (by decide)

/-- C10: a zero-sector request fails throughout the block stack:
`part_read` and `part_write` return `false` when `count == 0`, and
`ahci_rw` returns `false` when `sector_count == 0` having performed no
MMIO write to the port, whatever the command-issue tail would have done. -/
theorem zero_count_requests_fail (ls lc : Nat) (prd pwr : Nat → Nat → Bool)
    (lba : Nat) (ready : Bool) (rest : AhciRwOutcome) :
    part_read ls lc prd lba 0 = false ∧
      part_write ls lc pwr lba 0 = false ∧
      ahci_rw ready 0 rest = ⟨false, []⟩ := by
  refine ⟨rfl, rfl, ?_⟩
  unfold ahci_rw
  cases ready <;> rfl

/-- C10 (witness): concrete instance on a ready disk. -/
theorem zero_count_requests_fail_witness :
    part_read 0 16 (fun _ _ => true) 3 0 = false ∧
      part_write 0 16 (fun _ _ => true) 3 0 = false ∧
      ahci_rw true 0 ⟨true, [(0x38, 1)]⟩ = ⟨false, []⟩ :=
  zero_count_requests_fail 0 16 (fun _ _ => true) (fun _ _ => true) 3 true
    ⟨true, [(0x38, 1)]⟩

/-- The GPT entry loop, from any starting partition table: it appends, in
array order, the kept entries up to the remaining capacity, naming slot `k`
(0-based) `make_part_name pn (k+1)`. -/
theorem gpt_scan_eq (pn : List Char) (es : List GptEntry) :
    ∀ ps : List PartDev,
      gpt_scan pn ps es =
        ps ++ mapWithIdx (gpt_mk pn) ps.length
          ((es.filter gpt_keep).take (16 - ps.length)) := by
  induction es with
  | nil => intro ps; simp [gpt_scan, mapWithIdx]
  | cons e rest ih =>
    intro ps
    unfold gpt_scan
    by_cases hfull : ps.length ≥ 16
    · rw [if_pos hfull]
      have h0 : 16 - ps.length = 0 := by omega
      simp [h0, mapWithIdx]
    rw [if_neg hfull]
    by_cases hg : guid_is_zero e.type_guid
    · have hk : gpt_keep e = false := by simp [gpt_keep, hg]
      rw [if_pos hg, ih ps, List.filter_cons, hk]
      simp
    rw [if_neg hg]
    by_cases h00 : e.first_lba = 0 ∧ e.last_lba = 0
    · have hk : gpt_keep e = false := by simp [gpt_keep, h00.1, h00.2]
      rw [if_pos h00, ih ps, List.filter_cons, hk]
      simp
    rw [if_neg h00]
    by_cases hlt : e.last_lba < e.first_lba
    · have hk : gpt_keep e = false := by simp [gpt_keep, hlt]
      rw [if_pos hlt, ih ps, List.filter_cons, hk]
      simp
    rw [if_neg hlt]
    unfold register_partition
    rw [if_neg hfull]
    by_cases hc : u64 (e.last_lba - e.first_lba + 1) = 0
    · have hk : gpt_keep e = false := by simp [gpt_keep, hc]
      rw [if_pos hc, ih ps, List.filter_cons, hk]
      simp
    · have hk : gpt_keep e = true := by
        simp only [gpt_keep, decide_eq_true_eq]
        exact ⟨hg, h00, hlt, hc⟩
      rw [if_neg hc, ih _, List.filter_cons, hk]
      obtain ⟨m, hm⟩ : ∃ m, 16 - ps.length = m + 1 := ⟨15 - ps.length, by omega⟩
      have hm2 : 16 - (ps.length + 1) = m := by omega
      simp only [if_pos, List.length_append, List.length_singleton, hm, hm2,
        List.take_succ_cons, mapWithIdx, List.append_assoc,
        List.singleton_append]
      rfl

/-- The MBR entry loop over any index list that fits the remaining
capacity: it appends the kept entries in order and counts them. -/
theorem mbr_loop_eq (pn : List Char) (sec : List Nat) (is : List Nat) :
    ∀ (ps : List PartDev) (added : Nat), ps.length + is.length ≤ 16 →
      mbr_loop pn sec is ps added =
        (ps ++ mapWithIdx (fun k i => mbr_mk pn sec k i) ps.length
           (is.filter (mbr_keep sec)),
         added + (is.filter (mbr_keep sec)).length) := by
  induction is with
  | nil => intro ps added _; simp [mbr_loop, mapWithIdx]
  | cons i rest ih =>
    intro ps added h
    have hlen : ps.length + rest.length ≤ 16 := by
      simp only [List.length_cons] at h; omega
    unfold mbr_loop
    rw [if_neg (by simp only [List.length_cons] at h; omega)]
    by_cases h1 : mbr_type sec i = 0 ∨ mbr_count sec i = 0
    · have hk : mbr_keep sec i = false := by simp [mbr_keep]; tauto
      rw [if_pos h1, ih ps added hlen, List.filter_cons, hk]
      simp
    rw [if_neg h1]
    by_cases h2 : mbr_type sec i = 0xEE
    · have hk : mbr_keep sec i = false := by simp [mbr_keep, h2]
      rw [if_pos h2, ih ps added hlen, List.filter_cons, hk]
      simp
    · have hk : mbr_keep sec i = true := by
        simp only [mbr_keep, decide_eq_true_eq]
        exact ⟨h1, h2⟩
      have hcnt : ¬(mbr_count sec i = 0) := by tauto
      rw [if_neg h2]
      unfold register_partition
      rw [if_neg (show ¬(ps.length ≥ 16) by
        simp only [List.length_cons] at h; omega), if_neg hcnt]
      refine (ih _ (added + 1) ?_).trans ?_
      · simp only [List.length_append, List.length_cons, List.length_nil] at h ⊢
        omega
      · rw [List.filter_cons, hk]
        simp only [if_true, List.length_append, List.length_cons,
          List.length_nil, List.append_assoc, List.singleton_append,
          mapWithIdx, Prod.mk.injEq]
        exact ⟨rfl, by omega⟩

/-- C6 (counterexample): a GPT entry with a non-zero type GUID and
`first_lba = last_lba = 0` satisfies the claim's registration condition
(`last_lba ≥ first_lba`), yet the entry loop registers nothing for it. -/
theorem gpt_zero_lba_counterexample :
    gpt_scan ahci0 [] [gpt_zero_lba_entry] = [] ∧
      guid_is_zero gpt_zero_lba_entry.type_guid = false ∧
      gpt_zero_lba_entry.first_lba ≤ gpt_zero_lba_entry.last_lba := by
  refine ⟨by decide, by decide, by decide⟩

/-- C6 (amended): the GPT loop registers, in array order and up to
`MAX_PARTITIONS = 16`, exactly the entries with a non-zero type GUID,
`last_lba ≥ first_lba`, and *not* `first_lba = last_lba = 0` (an extra
skip the claim omits), as `{first_lba, last_lba − first_lba + 1}` with
1-based names `make_part_name`; in particular the spec's three-entry disk
yields exactly `ahci0p1 {2048, 2048}`, `ahci0p2 {4096, 2048}`,
`ahci0p3 {6144, 4096}`. -/
theorem gpt_entry_registration :
    (∀ (pn : List Char) (es : List GptEntry) (ps : List PartDev),
        gpt_scan pn ps es =
          ps ++ mapWithIdx (gpt_mk pn) ps.length
            ((es.filter gpt_keep).take (16 - ps.length))) ∧
      gpt_scan ahci0 [] gpt_three =
        [⟨['a', 'h', 'c', 'i', '0', 'p', '1'], 2048, 2048, true, 0⟩,
         ⟨['a', 'h', 'c', 'i', '0', 'p', '2'], 4096, 2048, true, 0⟩,
         ⟨['a', 'h', 'c', 'i', '0', 'p', '3'], 6144, 4096, true, 0⟩] :=
  ⟨fun pn es ps => gpt_scan_eq pn es ps, by decide⟩

/-- C8: with the `55 AA` signature present, the MBR probe registers
exactly the entries (among the four at offset 446) whose type is neither 0
nor 0xEE and whose count is non-zero; the spec's type-0x83 disk yields one
partition `{2048, 1024000}` named `ahci0p1`, and a protective-only disk
yields none. -/
theorem mbr_parse_and_register :
    (∀ (pn : List Char) (sec : List Nat),
        byteAt sec 510 = 0x55 → byteAt sec 511 = 0xAA →
        probe_mbr_partitions pn [] sec =
          (mapWithIdx (fun k i => mbr_mk pn sec k i) 0
             ([0, 1, 2, 3].filter (mbr_keep sec)),
           ([0, 1, 2, 3].filter (mbr_keep sec)).length)) ∧
      probe_mbr_partitions ahci0 [] mbr_sector_83 =
        ([⟨['a', 'h', 'c', 'i', '0', 'p', '1'], 2048, 1024000, false, 0x83⟩],
         1) ∧
      probe_mbr_partitions ahci0 [] mbr_sector_ee = ([], 0) := by
  refine ⟨?_, by decide, by decide⟩
  intro pn sec h510 h511
  unfold probe_mbr_partitions
  rw [if_pos ⟨h510, h511⟩]
  simpa using mbr_loop_eq pn sec [0, 1, 2, 3] [] 0 (by simp)

/-- `find_ready` distributes over list append, first match wins. -/
theorem find_ready_append (thr : Nat → ThreadState) (start : Nat)
    (l1 l2 : List Nat) :
    find_ready thr start (l1 ++ l2) =
      match find_ready thr start l1 with
      | some x => some x
      | none => find_ready thr start l2 := by
  induction l1 with
  | nil => simp [find_ready]
  | cons i rest ih =>
    simp only [List.cons_append, find_ready]
    by_cases h : thr ((start + i) % 16) = .ready
    · rw [if_pos h, if_pos h]
    · rw [if_neg h, if_neg h]
      exact ih

/-- `find_ready` finds nothing when no listed slot is ready. -/
theorem find_ready_none (thr : Nat → ThreadState) (start : Nat)
    (l : List Nat) (h : ∀ i ∈ l, thr ((start + i) % 16) ≠ .ready) :
    find_ready thr start l = none := by
  induction l with
  | nil => rfl
  | cons i rest ih =>
    simp only [find_ready]
    rw [if_neg (h i (by simp))]
    exact ih fun i hi => h i (by simp [hi])

/-- The scan loop of `next_runnable` returns the first ready slot, in loop
order from `start`. -/
theorem find_ready_first (thr : Nat → ThreadState) (start : Nat) :
    ∀ (n j : Nat), j < n → thr ((start + j) % 16) = .ready →
      (∀ k, k < j → thr ((start + k) % 16) ≠ .ready) →
      find_ready thr start (List.range n) = some ((start + j) % 16) := by
  intro n
  induction n with
  | zero => intro j hj; omega
  | succ n ih =>
    intro j hj hready hmin
    rw [List.range_succ, find_ready_append]
    by_cases hlt : j < n
    · rw [ih j hlt hready hmin]
    · have hjn : n = j := by omega
      subst hjn
      rw [find_ready_none thr start (List.range n)
        (fun i hi => hmin i (List.mem_range.mp hi))]
      simp only [find_ready]
      rw [if_pos hready]

/-- C2 (code evaluated at the failing input): a timer interrupt delivered
to the installed `irq0_handler` leaves `reschedule_requested` clear — the
stub only emits the PIC EOI and never calls `scheduler_on_tick` (which
would set the flag, but has no caller).  The consuming half of the claim
does hold: `scheduler_yield` reads and clears a set flag. -/
theorem irq0_does_not_set_resched :
    (irq0_handler sched_boot).1.reschedule_requested = 0 ∧
      irq0_handler sched_boot = (sched_boot, [(0x20, 0x20)]) ∧
      (scheduler_on_tick sched_boot).reschedule_requested = 1 ∧
      (scheduler_yield (scheduler_on_tick sched_boot)).reschedule_requested
        = 0 :=
  ⟨rfl, rfl, rfl, rfl⟩

/-- C5: (1) whenever a thread table slot is ready, `scheduler_yield` (via
`next_runnable`, given `thread_count > 1`) selects the first READY slot
scanning from `(current.id + 1) % 16` upward modulo 16 — non-READY (dead,
unused, blocked, running) slots are skipped; (2) when the reschedule flag
is clear and the next runnable equals the current thread, yield is a
no-op: the state is returned unchanged. -/
theorem scheduler_round_robin_and_noop :
    (∀ (s : SchedState) (cur j : Nat),
        s.current = some cur → 1 < s.thread_count → j < 16 →
        s.threads ((cur + 1 + j) % 16) = .ready →
        (∀ k, k < j → s.threads ((cur + 1 + k) % 16) ≠ .ready) →
        next_runnable s = some ((cur + 1 + j) % 16)) ∧
    (∀ (s : SchedState) (cur : Nat),
        s.current = some cur → s.reschedule_requested = 0 →
        next_runnable s = some cur →
        scheduler_yield s = s) := by
  constructor
  · intro s cur j hcur hcnt hj hready hmin
    unfold next_runnable
    rw [if_neg (by omega)]
    simp only [hcur]
    have key : find_ready s.threads ((cur + 1) % 16) (List.range 16) =
        some ((cur + 1 + j) % 16) := by
      have e : ((cur + 1) % 16 + j) % 16 = (cur + 1 + j) % 16 := by omega
      have hready' : s.threads (((cur + 1) % 16 + j) % 16) = .ready := by
        rw [e]; exact hready
      have hmin' : ∀ k, k < j →
          s.threads (((cur + 1) % 16 + k) % 16) ≠ .ready := by
        intro k hk
        have ek : ((cur + 1) % 16 + k) % 16 = (cur + 1 + k) % 16 := by omega
        rw [ek]; exact hmin k hk
      rw [find_ready_first s.threads ((cur + 1) % 16) 16 j hj hready' hmin', e]
    rw [key]
  · intro s cur hcur hflag hnext
    obtain ⟨thr, c, cnt, rr⟩ := s
    change c = some cur at hcur
    change rr = 0 at hflag
    subst hcur
    subst hflag
    simp [scheduler_yield, hnext]

/-- C5 (witness): with bootstrap running in slot 0 and one created thread
ready in slot 1, the next runnable is slot `(0+1+0) % 16 = 1`; with only
the bootstrap thread and a clear flag, yield changes nothing. -/
theorem scheduler_round_robin_witness :
    next_runnable sched_two = some ((0 + 1 + 0) % 16) ∧
      scheduler_yield sched_boot = sched_boot := by
  constructor
  · exact scheduler_round_robin_and_noop.1 sched_two 0 0 rfl (by decide)
      (by decide) (by decide) (fun k hk => absurd hk (by omega))
  · exact scheduler_round_robin_and_noop.2 sched_boot 0 rfl rfl (by decide)

/-- Bitwise AND distributes over OR on `Nat`. -/
theorem mask_or (a b m : Nat) :
    (a ||| b) &&& m = (a &&& m) ||| (b &&& m) := by
  apply Nat.eq_of_testBit_eq
  intro i
  simp [Nat.testBit_or, Nat.testBit_and, Bool.and_or_distrib_right]

/-- Masking twice is masking once. -/
theorem mask_idem (a m : Nat) : (a &&& m) &&& m = a &&& m := by
  rw [Nat.and_assoc, Nat.and_self]

/-- An entry with the PRESENT bit OR-ed in is non-zero in that bit. -/
theorem or_one_ne_zero (a : Nat) : a ||| 1 ≠ 0 := by
  intro h
  have := congrArg (fun x => x.testBit 0) h
  simp [Nat.testBit_or] at this

/-- An entry with the USER bit OR-ed in is non-zero in that bit. -/
theorem or_four_ne_zero (a : Nat) : a ||| 4 ≠ 0 := by
  intro h
  have := congrArg (fun x => x.testBit 2) h
  simp [Nat.testBit_or] at this
  exact absurd this.2 (by decide)

/-- Reading the entry just written. -/
theorem entryUpdate_self (m : Nat → Nat → Nat) (t idx v : Nat) :
    entryUpdate m t idx v t idx = v := by
  simp [entryUpdate]

/-- Reading any other entry. -/
theorem entryUpdate_other (m : Nat → Nat → Nat) (t idx v b i : Nat)
    (h : ¬(b = t ∧ i = idx)) : entryUpdate m t idx v b i = m b i := by
  simp [entryUpdate, h]

/-- Reading outside a zeroed table. -/
theorem tableZero_other (m : Nat → Nat → Nat) (t b i : Nat) (h : b ≠ t) :
    tableZero m t b i = m b i := by
  simp [tableZero, h]

/-- Reading back the slot just written. -/
theorem getBuf_setBuf_self (s : BcacheState) (i : Nat) (b : BcacheBuf)
    (h : i < s.bufs.length) : getBuf (setBuf s i b) i = b := by
  simp [getBuf, setBuf, List.getD_eq_getElem?_getD,
    List.getElem?_set_eq_of_lt b h]

/-- `setBuf` preserves the pool size. -/
theorem length_setBuf (s : BcacheState) (i : Nat) (b : BcacheBuf) :
    (setBuf s i b).bufs.length = s.bufs.length := by
  simp [setBuf]

/-- Reduction of `bcache_get` on a miss whose valid dirty victim fails to
write back. -/
theorem bcache_get_wb_fail (wok rok : Nat → Nat → Bool) (s : BcacheState)
    (dev blk v : Nat) (hlk : ht_lookup s dev blk = none)
    (hfe : find_evictable s = some v)
    (hcond : (getBuf s v).valid = true ∧ (getBuf s v).dirty = true)
    (hwb : writeback_one wok s v = none) :
    bcache_get wok rok s dev blk = (s, none) := by
  unfold bcache_get
  simp only [hlk, hfe]
  rw [if_pos hcond, hwb]

/-- Reduction of `bcache_get` on a miss whose valid dirty victim writes
back successfully. -/
theorem bcache_get_wb_ok (wok rok : Nat → Nat → Bool) (s s1 : BcacheState)
    (dev blk v : Nat) (hlk : ht_lookup s dev blk = none)
    (hfe : find_evictable s = some v)
    (hcond : (getBuf s v).valid = true ∧ (getBuf s v).dirty = true)
    (hwb : writeback_one wok s v = some s1) :
    bcache_get wok rok s dev blk =
      (let s2 := setBuf s1 v
        { getBuf s1 v with dev := some dev, block_no := blk, valid := true,
                           dirty := false }
       if rok dev blk then
         (lru_touch (setBuf s2 v
           { getBuf s2 v with data := s2.disk dev blk, refcnt := 1 }) v,
          some v)
       else
         (setBuf s2 v
           { getBuf s2 v with valid := false, dev := none, block_no := 0 },
          none)) := by
  unfold bcache_get
  simp only [hlk, hfe]
  rw [if_pos hcond, hwb]

/-- C3: the block-cache invariants. (1) `find_evictable` only ever returns
a buffer with `refcnt == 0`, so a pinned buffer is never the eviction
victim; (2) `bcache_put` leaves a zero refcount alone (no underflow — in
the model refcounts are naturals, hence trivially ≥ 0, mirroring the
`uint32_t` of the source); (3) if the valid dirty victim's writeback
fails, `bcache_get` returns failure with the cache state — in particular
the victim's contents and identity — exactly unchanged; (4) if the
writeback succeeds, the victim's old device receives the old contents at
the old block number before re-keying (and the disk still holds them in
the final state), the victim is clean from the writeback on, and on a
successful read the slot ends up `{dev, blk, refcnt = 1, valid, clean}`. -/
theorem bcache_invariants :
    (∀ (s : BcacheState) (i : Nat),
        find_evictable s = some i → (getBuf s i).refcnt = 0) ∧
    (∀ (s : BcacheState) (i : Nat),
        (getBuf s i).refcnt = 0 → bcache_put s i = s) ∧
    (∀ (wok rok : Nat → Nat → Bool) (s : BcacheState) (dev blk v : Nat),
        ht_lookup s dev blk = none → find_evictable s = some v →
        (getBuf s v).valid = true → (getBuf s v).dirty = true →
        writeback_one wok s v = none →
        bcache_get wok rok s dev blk = (s, none)) ∧
    (∀ (wok rok : Nat → Nat → Bool) (s s1 : BcacheState)
        (dev blk v d : Nat),
        v < s.bufs.length →
        ht_lookup s dev blk = none → find_evictable s = some v →
        (getBuf s v).valid = true → (getBuf s v).dirty = true →
        (getBuf s v).dev = some d →
        writeback_one wok s v = some s1 →
        ((bcache_get wok rok s dev blk).1.disk d (getBuf s v).block_no =
            (getBuf s v).data ∧
         (getBuf s1 v).dirty = false ∧
         (rok dev blk = true →
           getBuf (bcache_get wok rok s dev blk).1 v =
             ⟨some dev, blk, 1, true, false, s1.disk dev blk⟩))) := by
  refine ⟨?_, ?_, ?_, ?_⟩
  · intro s i h
    simpa using List.find?_some h
  · intro s i h
    show (if (getBuf s i).refcnt = 0 then s else _) = s
    rw [if_pos h]
  · intro wok rok s dev blk v hlk hfe hv hd hwb
    exact bcache_get_wb_fail wok rok s dev blk v hlk hfe ⟨hv, hd⟩ hwb
  · intro wok rok s s1 dev blk v d hvlen hlk hfe hv hd hdev hwb
    have hwb0 := hwb
    simp only [writeback_one, hv, hd, hdev, Bool.true_eq_false, if_false] at hwb
    cases hwok : wok d (getBuf s v).block_no with
    | false => rw [hwok] at hwb; simp at hwb
    | true =>
      rw [hwok, if_pos rfl] at hwb
      simp only [Option.some.injEq] at hwb
      subst hwb
      rw [bcache_get_wb_ok wok rok s _ dev blk v hlk hfe ⟨hv, hd⟩ hwb0]
      have hlen1 : v < (setBuf
          { bufs := s.bufs, lru := s.lru,
            disk := diskWrite s.disk d (getBuf s v).block_no
              (getBuf s v).data } v
          { dev := some d, block_no := (getBuf s v).block_no,
            refcnt := (getBuf s v).refcnt, valid := true, dirty := false,
            data := (getBuf s v).data }).bufs.length := by
        rw [length_setBuf]; exact hvlen
      refine ⟨?_, ?_, ?_⟩
      · cases hr : rok dev blk <;>
          simp [hr, lru_touch, setBuf, diskWrite]
      · simp [getBuf, setBuf, List.getD_eq_getElem?_getD,
          List.getElem?_set_eq_of_lt, List.length_set, hvlen]
      · intro hr
        simp only [hr, if_true]
        simp [lru_touch, getBuf, setBuf, List.getD_eq_getElem?_getD,
          List.getElem?_set_eq_of_lt, List.length_set, hvlen]

/-- C3 (witness): all four invariants exercised on the one-buffer cache
`bc_state0` (valid, dirty, unpinned, key `(7,3)`, contents 42): buffer 0
is the victim and has refcount 0; `put` is a no-op at refcount 0; with a
failing device write, `get (7,5)` returns failure leaving the state
unchanged; with a working device, the writeback lands 42 at disk block
`(7,3)` and the slot is re-keyed to `(7,5)` pinned and clean. -/
theorem bcache_invariants_witness :
    (getBuf bc_state0 0).refcnt = 0 ∧
      bcache_put bc_state0 0 = bc_state0 ∧
      bcache_get (fun _ _ => false) (fun _ _ => true) bc_state0 7 5 =
        (bc_state0, none) ∧
      ((bcache_get (fun _ _ => true) (fun _ _ => true) bc_state0 7 5).1.disk
          7 (getBuf bc_state0 0).block_no = (getBuf bc_state0 0).data ∧
       (getBuf bc_state1 0).dirty = false ∧
       getBuf (bcache_get (fun _ _ => true) (fun _ _ => true)
           bc_state0 7 5).1 0 =
         ⟨some 7, 5, 1, true, false, bc_state1.disk 7 5⟩) := by
  have h4 := bcache_invariants.2.2.2 (fun _ _ => true) (fun _ _ => true)
    bc_state0 bc_state1 7 5 0 7 (by decide) (by decide) (by decide)
    (by decide) (by decide) (by decide) rfl
  exact ⟨bcache_invariants.1 bc_state0 0 (by decide),
    bcache_invariants.2.1 bc_state0 0 (by decide),
    bcache_invariants.2.2.1 (fun _ _ => false) (fun _ _ => true) bc_state0
      7 5 0 (by decide) (by decide) (by decide) (by decide) rfl,
    h4.1, h4.2.1, h4.2.2 rfl⟩

/-- What a successful `get_or_create_table` guarantees: the entry at
`(table, idx)` is present and points to the returned child `c`; `c` is a
well-formed (52-bit, page-aligned) base; when `user` was requested the
entry has the USER bit; all entries other than `(table, idx)` and those
of table `c` are untouched; and the remaining free list is a sub-list. -/
theorem goc_spec (m : Nat → Nat → Nat) (fl : List Nat) (t idx : Nat)
    (user : Bool) (m' : Nat → Nat → Nat) (fl' : List Nat) (c : Nat)
    (hfr : ∀ a ∈ fl, a &&& addrMask = a)
    (h : get_or_create_table m fl t idx user = some (m', fl', c)) :
    m' t idx &&& 1 ≠ 0 ∧
    pte_get_addr (m' t idx) = c ∧
    c &&& addrMask = c ∧
    (user = true → m' t idx &&& 4 ≠ 0) ∧
    (∀ b i, ¬(b = t ∧ i = idx) → b ≠ c → m' b i = m b i) ∧
    (∀ a ∈ fl', a ∈ fl) := by
  simp only [get_or_create_table] at h
  by_cases hp : m t idx &&& 1 ≠ 0
  · rw [if_pos hp] at h
    simp only [Option.some.injEq, Prod.mk.injEq] at h
    obtain ⟨hm', hfl', hc⟩ := h
    subst hm' hfl' hc
    by_cases hu : user = true ∧ m t idx &&& 4 = 0
    · rw [if_pos hu]
      refine ⟨?_, ?_, ?_, ?_, ?_, ?_⟩
      · rw [entryUpdate_self, mask_or,
          show (4 : Nat) &&& 1 = 0 from rfl, Nat.or_zero]
        exact hp
      · rw [entryUpdate_self]
        simp only [pte_get_addr]
        rw [mask_or, show (4 : Nat) &&& addrMask = 0 from by decide,
          Nat.or_zero]
      · simp only [pte_get_addr]
        exact mask_idem _ _
      · intro _
        rw [entryUpdate_self, mask_or, show (4 : Nat) &&& 4 = 4 from rfl]
        exact or_four_ne_zero _
      · intro b i hbi _
        exact entryUpdate_other _ _ _ _ _ _ hbi
      · exact fun a ha => ha
    · rw [if_neg hu]
      refine ⟨hp, rfl, ?_, ?_, fun _ _ _ _ => rfl, fun a ha => ha⟩
      · simp only [pte_get_addr]
        exact mask_idem _ _
      · intro hu' h0
        exact hu ⟨hu', h0⟩
  · rw [if_neg hp] at h
    cases fl with
    | nil => exact absurd h (by simp)
    | cons np rest =>
      simp only [] at h
      by_cases h0 : np = 0
      · rw [if_pos h0] at h
        exact absurd h (by simp)
      · rw [if_neg h0] at h
        simp only [Option.some.injEq, Prod.mk.injEq] at h
        obtain ⟨hm', hfl', hc⟩ := h
        subst hm' hfl' hc
        have hnp : np &&& addrMask = np := hfr np (by simp)
        cases user with
        | false =>
          refine ⟨?_, ?_, hnp, ?_, ?_, ?_⟩
          · rw [entryUpdate_self]
            simp only [Bool.false_eq_true, if_false]
            rw [mask_or, show (3 : Nat) &&& 1 = 1 from rfl]
            exact or_one_ne_zero _
          · rw [entryUpdate_self]
            simp only [Bool.false_eq_true, if_false, pte_get_addr]
            rw [mask_or, show (3 : Nat) &&& addrMask = 0 from by decide,
              Nat.or_zero, hnp]
          · intro hfalse
            exact absurd hfalse (by simp)
          · intro b i hbi hbc
            rw [entryUpdate_other _ _ _ _ _ _ hbi, tableZero_other _ _ _ _ hbc]
          · exact fun a ha => List.mem_cons_of_mem _ ha
        | true =>
          refine ⟨?_, ?_, hnp, ?_, ?_, ?_⟩
          · rw [entryUpdate_self]
            simp only [if_true]
            rw [mask_or, show (7 : Nat) &&& 1 = 1 from rfl]
            exact or_one_ne_zero _
          · rw [entryUpdate_self]
            simp only [if_true, pte_get_addr]
            rw [mask_or, show (7 : Nat) &&& addrMask = 0 from by decide,
              Nat.or_zero, hnp]
          · intro _
            rw [entryUpdate_self]
            simp only [if_true]
            rw [mask_or, show (7 : Nat) &&& 4 = 4 from rfl]
            exact or_four_ne_zero _
          · intro b i hbi hbc
            rw [entryUpdate_other _ _ _ _ _ _ hbi, tableZero_other _ _ _ _ hbc]
          · exact fun a ha => List.mem_cons_of_mem _ ha

/-- What a successful `vmm_map_page` establishes, given pairwise-distinct
path tables: the three intermediate entries are present and link
`pml4 → t1 → t2 → t3`, the leaf entry is `phys | flags | PRESENT`, a
USER-flagged mapping leaves the USER bit set on all three intermediate
entries, and the handle still points at the same PML4. -/
theorem vmm_map_spec (s : VmmState) (virt phys flags : Nat) (s' : VmmState)
    (m3 : Nat → Nat → Nat) (f3 : List Nat) (t1 t2 t3 : Nat)
    (hfr : ∀ a ∈ s.freeFrames, a &&& addrMask = a)
    (hwalk : vmm_walk_create s virt (user_flag flags) =
      some (m3, f3, t1, t2, t3))
    (hmap : vmm_map_page s virt phys flags = some s')
    (hnd : [s.pml4, t1, t2, t3].Nodup) :
    s'.pml4 = s.pml4 ∧
    s'.mem s.pml4 (pml4_index (page_align_down virt)) &&& 1 ≠ 0 ∧
    pte_get_addr (s'.mem s.pml4 (pml4_index (page_align_down virt))) = t1 ∧
    s'.mem t1 (pdpt_index (page_align_down virt)) &&& 1 ≠ 0 ∧
    pte_get_addr (s'.mem t1 (pdpt_index (page_align_down virt))) = t2 ∧
    s'.mem t2 (pd_index (page_align_down virt)) &&& 1 ≠ 0 ∧
    pte_get_addr (s'.mem t2 (pd_index (page_align_down virt))) = t3 ∧
    s'.mem t3 (pt_index (page_align_down virt)) =
      (page_align_down phys ||| flags ||| 1) ∧
    (user_flag flags = true →
      s'.mem s.pml4 (pml4_index (page_align_down virt)) &&& 4 ≠ 0 ∧
      s'.mem t1 (pdpt_index (page_align_down virt)) &&& 4 ≠ 0 ∧
      s'.mem t2 (pd_index (page_align_down virt)) &&& 4 ≠ 0) := by
  simp only [List.nodup_cons, List.mem_cons, List.mem_singleton,
    List.not_mem_nil, or_false, not_or] at hnd
  obtain ⟨⟨h01, h02, h03⟩, ⟨h12, h13⟩, h23, -⟩ := hnd
  have hwalk0 := hwalk
  simp only [vmm_walk_create] at hwalk
  cases hg1 : get_or_create_table s.mem s.freeFrames s.pml4
      (pml4_index (page_align_down virt)) (user_flag flags) with
  | none => rw [hg1] at hwalk; exact absurd hwalk (by simp)
  | some r1 =>
    obtain ⟨m1, f1, t1x⟩ := r1
    rw [hg1] at hwalk
    simp only [] at hwalk
    cases hg2 : get_or_create_table m1 f1 t1x
        (pdpt_index (page_align_down virt)) (user_flag flags) with
    | none => rw [hg2] at hwalk; exact absurd hwalk (by simp)
    | some r2 =>
      obtain ⟨m2, f2, t2x⟩ := r2
      rw [hg2] at hwalk
      simp only [] at hwalk
      cases hg3 : get_or_create_table m2 f2 t2x
          (pd_index (page_align_down virt)) (user_flag flags) with
      | none => rw [hg3] at hwalk; exact absurd hwalk (by simp)
      | some r3 =>
        obtain ⟨m3x, f3x, t3x⟩ := r3
        rw [hg3] at hwalk
        simp only [Option.some.injEq, Prod.mk.injEq] at hwalk
        obtain ⟨em, ef, e1, e2, e3⟩ := hwalk
        rw [e1] at hg1
        rw [e1, e2] at hg2
        rw [e2, em, ef, e3] at hg3
        simp only [vmm_map_page, hwalk0, Option.some.injEq] at hmap
        subst hmap
        obtain ⟨P1p, P1a, -, P1u, F1, S1⟩ :=
          goc_spec _ _ _ _ _ _ _ _ hfr hg1
        obtain ⟨P2p, P2a, -, P2u, F2, S2⟩ :=
          goc_spec _ _ _ _ _ _ _ _ (fun a ha => hfr a (S1 a ha)) hg2
        obtain ⟨P3p, P3a, -, P3u, F3, S3⟩ :=
          goc_spec _ _ _ _ _ _ _ _
            (fun a ha => hfr a (S1 a (S2 a ha))) hg3
        have E0 : entryUpdate m3 t3 (pt_index (page_align_down virt))
            (page_align_down phys ||| flags ||| 1) s.pml4
            (pml4_index (page_align_down virt)) =
            m1 s.pml4 (pml4_index (page_align_down virt)) := by
          rw [entryUpdate_other _ _ _ _ _ _ (fun hx => h03 hx.1),
            F3 _ _ (fun hx => h02 hx.1) h03,
            F2 _ _ (fun hx => h01 hx.1) h02]
        have E1 : entryUpdate m3 t3 (pt_index (page_align_down virt))
            (page_align_down phys ||| flags ||| 1) t1
            (pdpt_index (page_align_down virt)) =
            m2 t1 (pdpt_index (page_align_down virt)) := by
          rw [entryUpdate_other _ _ _ _ _ _ (fun hx => h13 hx.1),
            F3 _ _ (fun hx => h12 hx.1) h13]
        have E2 : entryUpdate m3 t3 (pt_index (page_align_down virt))
            (page_align_down phys ||| flags ||| 1) t2
            (pd_index (page_align_down virt)) =
            m3 t2 (pd_index (page_align_down virt)) := by
          rw [entryUpdate_other _ _ _ _ _ _ (fun hx => h23 hx.1)]
        refine ⟨rfl, ?_, ?_, ?_, ?_, ?_, ?_, ?_, ?_⟩
        · show entryUpdate m3 t3 _ _ s.pml4 _ &&& 1 ≠ 0
          rw [E0]; exact P1p
        · show pte_get_addr (entryUpdate m3 t3 _ _ s.pml4 _) = t1
          rw [E0]; exact P1a
        · show entryUpdate m3 t3 _ _ t1 _ &&& 1 ≠ 0
          rw [E1]; exact P2p
        · show pte_get_addr (entryUpdate m3 t3 _ _ t1 _) = t2
          rw [E1]; exact P2a
        · show entryUpdate m3 t3 _ _ t2 _ &&& 1 ≠ 0
          rw [E2]; exact P3p
        · show pte_get_addr (entryUpdate m3 t3 _ _ t2 _) = t3
          rw [E2]; exact P3a
        · exact entryUpdate_self _ _ _ _
        · intro hu
          refine ⟨?_, ?_, ?_⟩
          · show entryUpdate m3 t3 _ _ s.pml4 _ &&& 4 ≠ 0
            rw [E0]; exact P1u hu
          · show entryUpdate m3 t3 _ _ t1 _ &&& 4 ≠ 0
            rw [E1]; exact P2u hu
          · show entryUpdate m3 t3 _ _ t2 _ &&& 4 ≠ 0
            rw [E2]; exact P3u hu

/-- On a present entry, a non-USER `get_or_create_table` changes nothing
and returns the linked table. -/
theorem goc_present_nouser (m : Nat → Nat → Nat) (fl : List Nat)
    (t idx : Nat) (hp : m t idx &&& 1 ≠ 0) :
    get_or_create_table m fl t idx false =
      some (m, fl, pte_get_addr (m t idx)) := by
  simp only [get_or_create_table]
  rw [if_pos hp]
  simp

/-- C1 (counterexample): mapping `virt = 0`, `phys = 0` with flag word
`0x1000` (bit 12 lies inside the PTE address field) succeeds, yet
`vmm_get_physical` then returns `0x1000`, not `phys & ~0xFFF = 0`. -/
theorem vmm_flags_counterexample :
    (vmm_map_page vmm_state0 0 0 0x1000).isSome = true ∧
      vmm_get_physical ((vmm_map_page vmm_state0 0 0 0x1000).getD vmm_state0)
        0 = 0x1000 ∧
      (0x1000 : Nat) ≠ page_align_down 0 :=
  ⟨rfl, rfl, by decide⟩

/-- C1 (amended): provided the flag word has no bits inside the PTE
address field (bits 12–51) and the page-aligned physical address fits in
52 bits — true of every flag/physical pair the kernel uses — a successful
`vmm_map_page(pt, virt, phys, flags)` makes `vmm_get_physical(pt, virt)`
return `phys & ~0xFFF`, and after `vmm_unmap_page(pt, virt)` it returns 0.
The PMM-side conditions (free frames are page-aligned 52-bit addresses,
walked tables pairwise distinct) hold in the kernel by construction. -/
theorem vmm_map_get_unmap (s : VmmState) (virt phys flags : Nat)
    (s' : VmmState)
    (hfr : ∀ a ∈ s.freeFrames, a &&& addrMask = a)
    (hflags : flags &&& addrMask = 0)
    (hphys : page_align_down phys &&& addrMask = page_align_down phys)
    (hdist : path_distinct s virt (user_flag flags))
    (hmap : vmm_map_page s virt phys flags = some s') :
    vmm_get_physical s' virt = page_align_down phys ∧
      vmm_get_physical (vmm_unmap_page s' virt) virt = 0 := by
  cases hw : vmm_walk_create s virt (user_flag flags) with
  | none =>
    simp only [vmm_map_page, hw] at hmap
    exact absurd hmap (by simp)
  | some q =>
    obtain ⟨m3, f3, t1, t2, t3⟩ := q
    obtain ⟨hpml4, P1p, P1a, P2p, P2a, P3p, P3a, P7, -⟩ :=
      vmm_map_spec s virt phys flags s' m3 f3 t1 t2 t3 hfr hw hmap
        (hdist m3 f3 t1 t2 t3 hw)
    have hnd := hdist m3 f3 t1 t2 t3 hw
    simp only [List.nodup_cons, List.mem_cons, List.mem_singleton,
      List.not_mem_nil, or_false, not_or] at hnd
    obtain ⟨⟨h01, h02, h03⟩, ⟨h12, h13⟩, h23, -⟩ := hnd
    have hpres : ¬((page_align_down phys ||| flags ||| 1) &&& 1 = 0) := by
      rw [mask_or, show (1 : Nat) &&& 1 = 1 from rfl]
      exact or_one_ne_zero _
    have hleaf : pte_get_addr (page_align_down phys ||| flags ||| 1) =
        page_align_down phys := by
      simp only [pte_get_addr]
      rw [mask_or, mask_or, hphys, hflags,
        show (1 : Nat) &&& addrMask = 0 from by decide, Nat.or_zero,
        Nat.or_zero]
    constructor
    · unfold vmm_get_physical
      rw [hpml4, if_neg P1p, P1a, if_neg P2p, P2a, if_neg P3p, P3a, P7,
        if_neg hpres, hleaf]
    · have hunmap : vmm_unmap_page s' virt =
          ⟨entryUpdate s'.mem t3 (pt_index (page_align_down virt)) 0,
           s'.freeFrames, s'.pml4⟩ := by
        unfold vmm_unmap_page
        rw [hpml4, if_neg P1p, P1a, if_neg P2p, P2a, if_neg P3p, P3a]
      rw [hunmap]
      unfold vmm_get_physical
      simp only []
      rw [hpml4,
        entryUpdate_other _ _ _ _ _ _ (fun hx => h03 hx.1),
        if_neg P1p, P1a,
        entryUpdate_other _ _ _ _ _ _ (fun hx => h13 hx.1),
        if_neg P2p, P2a,
        entryUpdate_other _ _ _ _ _ _ (fun hx => h23 hx.1),
        if_neg P3p, P3a, entryUpdate_self,
        if_pos (show (0 : Nat) &&& 1 = 0 from rfl)]

/-- C1 (witness): map `virt = 0x200000` to `phys = 0x7000` with
`PRESENT|WRITE` on the empty table; lookup returns `0x7000`, and after
unmapping it returns 0. -/
theorem vmm_map_get_unmap_witness :
    vmm_get_physical ((vmm_map_page vmm_state0 0x200000 0x7000 3).getD
      vmm_state0) 0x200000 = page_align_down 0x7000 ∧
      vmm_get_physical (vmm_unmap_page ((vmm_map_page vmm_state0 0x200000
        0x7000 3).getD vmm_state0) 0x200000) 0x200000 = 0 := by
  have hdist : path_distinct vmm_state0 0x200000 (user_flag 3) := by
    intro m3 f3 t1 t2 t3 h
    obtain ⟨M, hw⟩ : ∃ M, vmm_walk_create vmm_state0 0x200000
        (user_flag 3) = some (M, ([] : List Nat), 0x1000, 0x2000, 0x3000) :=
      ⟨_, rfl⟩
    rw [hw] at h
    simp only [Option.some.injEq, Prod.mk.injEq] at h
    obtain ⟨-, -, e1, e2, e3⟩ := h
    subst e1 e2 e3
    decide
  exact vmm_map_get_unmap vmm_state0 0x200000 0x7000 3 _ (by decide)
    (by decide) (by decide) hdist rfl

/-- C9: a USER-flagged `vmm_map_page` leaves the USER bit set on every
intermediate entry of its walk (OR-ing it into existing present entries,
setting it on created ones), and a subsequent non-USER mapping through the
same branch (same PML4/PDPT/PD indices) leaves those three intermediate
entries entirely unchanged — in particular their USER bit stays set. -/
theorem vmm_user_no_downgrade (s : VmmState)
    (virt phys flags virt2 phys2 flags2 : Nat) (s' s'' : VmmState)
    (hfr : ∀ a ∈ s.freeFrames, a &&& addrMask = a)
    (huser : user_flag flags = true)
    (hdist : path_distinct s virt (user_flag flags))
    (hmap : vmm_map_page s virt phys flags = some s')
    (hsame0 : pml4_index (page_align_down virt2) =
      pml4_index (page_align_down virt))
    (hsame1 : pdpt_index (page_align_down virt2) =
      pdpt_index (page_align_down virt))
    (hsame2 : pd_index (page_align_down virt2) =
      pd_index (page_align_down virt))
    (huser2 : user_flag flags2 = false)
    (hmap2 : vmm_map_page s' virt2 phys2 flags2 = some s'') :
    ∀ m3 f3 t1 t2 t3,
      vmm_walk_create s virt (user_flag flags) = some (m3, f3, t1, t2, t3) →
      ((s'.mem s.pml4 (pml4_index (page_align_down virt)) &&& 4 ≠ 0 ∧
        s'.mem t1 (pdpt_index (page_align_down virt)) &&& 4 ≠ 0 ∧
        s'.mem t2 (pd_index (page_align_down virt)) &&& 4 ≠ 0) ∧
       (s''.mem s.pml4 (pml4_index (page_align_down virt)) =
          s'.mem s.pml4 (pml4_index (page_align_down virt)) ∧
        s''.mem t1 (pdpt_index (page_align_down virt)) =
          s'.mem t1 (pdpt_index (page_align_down virt)) ∧
        s''.mem t2 (pd_index (page_align_down virt)) =
          s'.mem t2 (pd_index (page_align_down virt)))) := by
  intro m3 f3 t1 t2 t3 hw
  obtain ⟨hpml4, P1p, P1a, P2p, P2a, P3p, P3a, P7, Puser⟩ :=
    vmm_map_spec s virt phys flags s' m3 f3 t1 t2 t3 hfr hw hmap
      (hdist m3 f3 t1 t2 t3 hw)
  have hnd := hdist m3 f3 t1 t2 t3 hw
  simp only [List.nodup_cons, List.mem_cons, List.mem_singleton,
    List.not_mem_nil, or_false, not_or] at hnd
  obtain ⟨⟨h01, h02, h03⟩, ⟨h12, h13⟩, h23, -⟩ := hnd
  have hw2 : vmm_walk_create s' virt2 false =
      some (s'.mem, s'.freeFrames, t1, t2, t3) := by
    simp only [vmm_walk_create, hsame0, hsame1, hsame2, hpml4]
    rw [goc_present_nouser _ _ _ _ P1p]
    simp only [P1a]
    rw [goc_present_nouser _ _ _ _ P2p]
    simp only [P2a]
    rw [goc_present_nouser _ _ _ _ P3p]
    simp only [P3a]
  simp only [vmm_map_page, huser2, hw2, Option.some.injEq] at hmap2
  subst hmap2
  refine ⟨Puser huser, ?_, ?_, ?_⟩
  · exact entryUpdate_other _ _ _ _ _ _ (fun hx => h03 hx.1)
  · exact entryUpdate_other _ _ _ _ _ _ (fun hx => h13 hx.1)
  · exact entryUpdate_other _ _ _ _ _ _ (fun hx => h23 hx.1)

/-- C9 (witness): map `virt = 0` with `PRESENT|WRITE|USER` on the empty
table, then map the same page again with only `PRESENT|WRITE`: the three
intermediate entries (in the PML4 at 0x4000 and the created tables at
0x1000 and 0x2000) have the USER bit set after the first map and are
unchanged by the second. -/
theorem vmm_user_no_downgrade_witness :
    ((((vmm_map_page vmm_state0 0 0 7).getD vmm_state0).mem 0x4000 0
        &&& 4 ≠ 0 ∧
      ((vmm_map_page vmm_state0 0 0 7).getD vmm_state0).mem 0x1000 0
        &&& 4 ≠ 0 ∧
      ((vmm_map_page vmm_state0 0 0 7).getD vmm_state0).mem 0x2000 0
        &&& 4 ≠ 0) ∧
     (((vmm_map_page ((vmm_map_page vmm_state0 0 0 7).getD vmm_state0)
          0 0x5000 3).getD vmm_state0).mem 0x4000 0 =
        ((vmm_map_page vmm_state0 0 0 7).getD vmm_state0).mem 0x4000 0 ∧
      ((vmm_map_page ((vmm_map_page vmm_state0 0 0 7).getD vmm_state0)
          0 0x5000 3).getD vmm_state0).mem 0x1000 0 =
        ((vmm_map_page vmm_state0 0 0 7).getD vmm_state0).mem 0x1000 0 ∧
      ((vmm_map_page ((vmm_map_page vmm_state0 0 0 7).getD vmm_state0)
          0 0x5000 3).getD vmm_state0).mem 0x2000 0 =
        ((vmm_map_page vmm_state0 0 0 7).getD vmm_state0).mem 0x2000 0)) := by
  have hdist : path_distinct vmm_state0 0 (user_flag 7) := by
    intro m3 f3 t1 t2 t3 h
    obtain ⟨M, hw⟩ : ∃ M, vmm_walk_create vmm_state0 0 (user_flag 7) =
        some (M, ([] : List Nat), 0x1000, 0x2000, 0x3000) := ⟨_, rfl⟩
    rw [hw] at h
    simp only [Option.some.injEq, Prod.mk.injEq] at h
    obtain ⟨-, -, e1, e2, e3⟩ := h
    subst e1 e2 e3
    decide
  obtain ⟨M, hw⟩ : ∃ M, vmm_walk_create vmm_state0 0 (user_flag 7) =
      some (M, ([] : List Nat), 0x1000, 0x2000, 0x3000) := ⟨_, rfl⟩
  exact vmm_user_no_downgrade vmm_state0 0 0 7 0 0x5000 3
    ((vmm_map_page vmm_state0 0 0 7).getD vmm_state0)
    ((vmm_map_page ((vmm_map_page vmm_state0 0 0 7).getD vmm_state0)
      0 0x5000 3).getD vmm_state0)
    (by decide) (by decide) hdist rfl rfl rfl rfl (by decide) rfl
    M [] 0x1000 0x2000 0x3000 hw

/-- C8 (witness): the general characterization applied to the concrete
type-0x83 sector. -/
theorem mbr_parse_and_register_witness :
    probe_mbr_partitions ahci0 [] mbr_sector_83 =
      (mapWithIdx (fun k i => mbr_mk ahci0 mbr_sector_83 k i) 0
         ([0, 1, 2, 3].filter (mbr_keep mbr_sector_83)),
       ([0, 1, 2, 3].filter (mbr_keep mbr_sector_83)).length) :=
  mbr_parse_and_register.1 ahci0 mbr_sector_83 (by decide) (by decide)

end KiwiOS
